import Mathlib

/-!
Shallow embedding of the WhatsApp-RSS link-triggered download orchestrator
(src/backend/sele_vd_downloader3.py and src/selenium/sele_vd_downloader3.py),
together with theorems settling the specification claims about it.

The embedding models:
 * the md5 hex digest used for link dedup keys (hashlib.md5(url.encode()).hexdigest()),
 * the LinkDownloadManager state and its methods (load_processed_links,
   is_link_processed, mark_link_processed, has_file_changed, update_file_state,
   extract_links_from_messages, update_media_json, download_link, process_new_links),
 * the two variants of SeleniumVideoDownloader.wait_for_download_completion
   (the backend variant and the selenium variant, which genuinely differ).

External effects (clock, filesystem listings, browser outcomes) are passed in
as explicit parameters, and Python object mutation becomes state passing.
-/

set_option maxRecDepth 100000

namespace WatsappRSS

/-! ## MD5 (RFC 1321), as used by hashlib.md5(...).hexdigest() -/

/-- Modulus for 32-bit arithmetic. -/
def m32 : Nat := 4294967296

/-- Left-rotate a 32-bit value (x assumed < 2^32). -/
def rotl32 (x n : Nat) : Nat := (((x <<< n) % m32) ||| (x >>> (32 - n)))

/-- UTF-8 encoding of a single code point (what str.encode() produces per char). -/
def utf8EncodeCp (n : Nat) : List Nat :=
  if n < 128 then [n]
  else if n < 2048 then [192 ||| (n >>> 6), 128 ||| (n &&& 63)]
  else if n < 65536 then
    [224 ||| (n >>> 12), 128 ||| ((n >>> 6) &&& 63), 128 ||| (n &&& 63)]
  else
    [240 ||| (n >>> 18), 128 ||| ((n >>> 12) &&& 63),
     128 ||| ((n >>> 6) &&& 63), 128 ||| (n &&& 63)]

/-- UTF-8 bytes of a string (url.encode() in the Python source). -/
def utf8Bytes (s : String) : List Nat :=
  (s.data.map (fun c => utf8EncodeCp c.toNat)).foldr (· ++ ·) []

/-- Sine-derived round constants of MD5 (RFC 1321 table T). -/
def md5K : List Nat :=
  [0xd76aa478, 0xe8c7b756, 0x242070db, 0xc1bdceee,
   0xf57c0faf, 0x4787c62a, 0xa8304613, 0xfd469501,
   0x698098d8, 0x8b44f7af, 0xffff5bb1, 0x895cd7be,
   0x6b901122, 0xfd987193, 0xa679438e, 0x49b40821,
   0xf61e2562, 0xc040b340, 0x265e5a51, 0xe9b6c7aa,
   0xd62f105d, 0x02441453, 0xd8a1e681, 0xe7d3fbc8,
   0x21e1cde6, 0xc33707d6, 0xf4d50d87, 0x455a14ed,
   0xa9e3e905, 0xfcefa3f8, 0x676f02d9, 0x8d2a4c8a,
   0xfffa3942, 0x8771f681, 0x6d9d6122, 0xfde5380c,
   0xa4beea44, 0x4bdecfa9, 0xf6bb4b60, 0xbebfbc70,
   0x289b7ec6, 0xeaa127fa, 0xd4ef3085, 0x04881d05,
   0xd9d4d039, 0xe6db99e5, 0x1fa27cf8, 0xc4ac5665,
   0xf4292244, 0x432aff97, 0xab9423a7, 0xfc93a039,
   0x655b59c3, 0x8f0ccc92, 0xffeff47d, 0x85845dd1,
   0x6fa87e4f, 0xfe2ce6e0, 0xa3014314, 0x4e0811a1,
   0xf7537e82, 0xbd3af235, 0x2ad7d2bb, 0xeb86d391]

/-- Per-round left-rotation amounts of MD5. -/
def md5S : List Nat :=
  [7, 12, 17, 22, 7, 12, 17, 22, 7, 12, 17, 22, 7, 12, 17, 22,
   5, 9, 14, 20, 5, 9, 14, 20, 5, 9, 14, 20, 5, 9, 14, 20,
   4, 11, 16, 23, 4, 11, 16, 23, 4, 11, 16, 23, 4, 11, 16, 23,
   6, 10, 15, 21, 6, 10, 15, 21, 6, 10, 15, 21, 6, 10, 15, 21]

/-- Nonlinear mixing function of round i (F, G, H, I of RFC 1321). -/
def md5Mix (i b c d : Nat) : Nat :=
  if i < 16 then (b &&& c) ||| ((b ^^^ 4294967295) &&& d)
  else if i < 32 then (d &&& b) ||| ((d ^^^ 4294967295) &&& c)
  else if i < 48 then b ^^^ c ^^^ d
  else c ^^^ (b ||| (d ^^^ 4294967295))

/-- Message-word index consumed by round i. -/
def md5G (i : Nat) : Nat :=
  if i < 16 then i
  else if i < 32 then (5 * i + 1) % 16
  else if i < 48 then (3 * i + 5) % 16
  else (7 * i) % 16

/-- One of the 64 MD5 rounds over state (a, b, c, d) and chunk words ws. -/
def md5Round (ws : List Nat) (st : Nat × Nat × Nat × Nat) (i : Nat) :
    Nat × Nat × Nat × Nat :=
  let a := st.1
  let b := st.2.1
  let c := st.2.2.1
  let d := st.2.2.2
  let tmp := (md5Mix i b c d + a + md5K.getD i 0 + ws.getD (md5G i) 0) % m32
  (d, (b + rotl32 tmp (md5S.getD i 0)) % m32, b, c)

/-- Little-endian 32-bit word from four bytes. -/
def leWord (b0 b1 b2 b3 : Nat) : Nat :=
  b0 + 256 * b1 + 65536 * b2 + 16777216 * b3

/-- Split a 64-byte chunk into sixteen little-endian words. -/
def chunkWords (chunk : List Nat) : List Nat :=
  (List.range 16).map (fun j =>
    leWord (chunk.getD (4 * j) 0) (chunk.getD (4 * j + 1) 0)
      (chunk.getD (4 * j + 2) 0) (chunk.getD (4 * j + 3) 0))

/-- Process one 64-byte chunk, updating the four running registers. -/
def md5Chunk (regs : Nat × Nat × Nat × Nat) (chunk : List Nat) :
    Nat × Nat × Nat × Nat :=
  let ws := chunkWords chunk
  let r := (List.range 64).foldl (md5Round ws) regs
  ((regs.1 + r.1) % m32, (regs.2.1 + r.2.1) % m32,
   (regs.2.2.1 + r.2.2.1) % m32, (regs.2.2.2 + r.2.2.2) % m32)

/-- Split a byte list into 64-byte chunks (fuel-indexed for structural recursion). -/
def chunks64Aux : Nat → List Nat → List (List Nat)
  | 0, _ => []
  | _, [] => []
  | fuel + 1, b :: rest => ((b :: rest).take 64) :: chunks64Aux fuel ((b :: rest).drop 64)

/-- Split a byte list into 64-byte chunks. -/
def chunks64 (l : List Nat) : List (List Nat) := chunks64Aux (l.length + 1) l

/-- Little-endian byte expansion (8 bytes) of the 64-bit message bit length. -/
def le64Bytes (n : Nat) : List Nat :=
  (List.range 8).map (fun i => (n >>> (8 * i)) % 256)

/-- MD5 padding: 0x80, zeros to 56 mod 64, then the bit length little-endian. -/
def md5Pad (msg : List Nat) : List Nat :=
  let padLen := (120 - ((msg.length + 1) % 64)) % 64
  msg ++ [128] ++ List.replicate padLen 0 ++ le64Bytes ((8 * msg.length) % 18446744073709551616)

/-- Little-endian byte expansion (4 bytes) of a 32-bit register. -/
def le32Bytes (n : Nat) : List Nat :=
  [n % 256, (n >>> 8) % 256, (n >>> 16) % 256, (n >>> 24) % 256]

/-- MD5 digest bytes of a byte message. -/
def md5Bytes (msg : List Nat) : List Nat :=
  let r := (chunks64 (md5Pad msg)).foldl md5Chunk
    (0x67452301, 0xefcdab89, 0x98badcfe, 0x10325476)
  le32Bytes r.1 ++ le32Bytes r.2.1 ++ le32Bytes r.2.2.1 ++ le32Bytes r.2.2.2

/-- Lowercase hex digit for a value below 16. -/
def hexDigit (n : Nat) : Char :=
  if n < 10 then Char.ofNat (48 + n) else Char.ofNat (87 + n)

/-- Two lowercase hex digits of a byte. -/
def byteHex (b : Nat) : List Char := [hexDigit (b / 16), hexDigit (b % 16)]

/-- Hex digest of the md5 of a string's UTF-8 bytes:
hashlib.md5(s.encode()).hexdigest(). -/
def md5Hex (s : String) : String :=
  String.mk (((md5Bytes (utf8Bytes s)).map byteHex).foldr (· ++ ·) [])

/-! ## Data model of LinkDownloadManager

Python mutation of `self` becomes explicit state passing; filesystem reads
(stat, open().read(), iterdir) become parameters describing the observed
file/directory; clock reads become fields of an `Env` value.  Timestamps and
sizes are modelled as Nat. -/

/-- One record of the parsed messages.json collection (external message store).
Only the fields the manager reads are modelled; message.get('body') returning
a missing/None body is modelled as the empty string (both are falsy). -/
structure Message where
  id : String
  type : String
  body : String
  author : String
  timestamp : Nat
deriving DecidableEq

/-- The link_info dict built by extract_links_from_messages. -/
structure LinkInfo where
  url : String
  message_id : String
  author : String
  timestamp : Nat
  message_body : String
deriving DecidableEq

/-- One entry of the persisted catalog (media.json / links.json). -/
structure MediaEntry where
  id : String
  author : String
  timestamp : Nat
  original_timestamp : Nat
  caption : String
  type : String
  mediaPath : String
  source_link : String
  source_message_id : String
  source_message_body : String
  file_size : Nat
  file_extension : String
  download_date : String
deriving DecidableEq

/-- The mutable fields of LinkDownloadManager that the claims touch. -/
structure MgrState where
  processed_links : List String
  link_to_media_map : List (String × MediaEntry)
  last_messages_content : String
  last_file_size : Nat
  last_modification_time : Nat
  is_processing : Bool
deriving DecidableEq

/-- Manager state right after __init__ field initialisation (before
load_processed_links and update_file_state run). -/
def freshMgrState : MgrState :=
  { processed_links := []
    link_to_media_map := []
    last_messages_content := ""
    last_file_size := 0
    last_modification_time := 0
    is_processing := false }

/-- Observed state of the messages file: existence, stat() results and the
decoded content that open(...).read() returns. -/
structure FileView where
  fileExists : Bool
  mtime : Nat
  size : Nat
  content : String
deriving DecidableEq

/-- Ambient values the code reads from the environment: int(time.time()) and
datetime.now().isoformat(). -/
structure Env where
  now : Nat
  nowIso : String
deriving DecidableEq

/-- Python set.add on the hash set: membership-preserving insert. -/
def insertHash (h : String) (l : List String) : List String :=
  if h ∈ l then l else h :: l

/-- Python dict assignment d[k] = v on an association list. -/
def setAssoc (k : String) (v : MediaEntry) (l : List (String × MediaEntry)) :
    List (String × MediaEntry) :=
  (k, v) :: l.filter (fun p => p.1 ≠ k)

/-- Link dedup key: hashlib.md5(url.encode()).hexdigest(). -/
def md5Hash (url : String) : String := md5Hex url

/-- LinkDownloadManager.is_link_processed (backend lines 158-161). -/
def is_link_processed (s : MgrState) (url : String) : Bool :=
  decide (md5Hash url ∈ s.processed_links)

/-- LinkDownloadManager.mark_link_processed (backend lines 163-168). -/
def mark_link_processed (s : MgrState) (url : String) (media_info : Option MediaEntry) :
    MgrState :=
  let h := md5Hash url
  { s with
    processed_links := insertHash h s.processed_links
    link_to_media_map :=
      match media_info with
      | some m => setAssoc h m s.link_to_media_map
      | none => s.link_to_media_map }

/-- LinkDownloadManager.load_processed_links (backend lines 97-112): fold the
persisted catalog entries into the processed-links index.  Every modelled
entry carries a source_link field, matching entries written by
update_media_json. -/
def load_processed_links (s : MgrState) (catalog : List MediaEntry) : MgrState :=
  catalog.foldl
    (fun acc entry =>
      let h := md5Hash entry.source_link
      { acc with
        processed_links := insertHash h acc.processed_links
        link_to_media_map := setAssoc h entry acc.link_to_media_map })
    s

/-- Processed-links index of a fresh process that loads the given catalog file
(LinkDownloadManager.__init__ calling load_processed_links). -/
def freshProcessLoad (catalog : List MediaEntry) : MgrState :=
  load_processed_links freshMgrState catalog

/-- LinkDownloadManager.update_file_state (backend lines 51-64). -/
def update_file_state (s : MgrState) (f : FileView) : MgrState :=
  if f.fileExists then
    { s with
      last_modification_time := f.mtime
      last_file_size := f.size
      last_messages_content := f.content }
  else s

/-- LinkDownloadManager.has_file_changed (backend lines 66-95): returns the
boolean result together with the possibly-updated manager state (the method
mutates last_modification_time / last_file_size on a touch). -/
def has_file_changed (s : MgrState) (f : FileView) : Bool × MgrState :=
  if ¬ f.fileExists then (false, s)
  else if f.mtime ≤ s.last_modification_time ∧ f.size = s.last_file_size then
    (false, s)
  else if f.content = s.last_messages_content then
    (false, { s with last_modification_time := f.mtime, last_file_size := f.size })
  else (true, s)

/-! ## Link Extractor

The four provider URL regexes of extract_links_from_messages (backend lines
125-130) all have the shape: a literal prefix followed by a greedy run of
non-whitespace characters (for the first pattern the run must not start with
a slash, because of the [^/\s]+ group).  re.findall scans left to right and
returns the maximal non-overlapping matches, which the model below mirrors
directly. -/

/-- ASCII whitespace of the regex class \s. -/
def isSpaceChar (c : Char) : Bool :=
  c = ' ' || c = '\t' || c = '\n' || c = '\r' || c = Char.ofNat 11 || c = Char.ofNat 12

/-- One provider URL pattern: literal prefix, and whether the first character
after the prefix must not be a slash ([^/\s]+ before [^\s]*). -/
structure LinkPattern where
  lit : List Char
  headNotSlash : Bool

/-- r'https://drive\.google\.com/file/d/[^/\s]+[^\s]*' -/
def patDriveFile : LinkPattern := ⟨"https://drive.google.com/file/d/".data, true⟩

/-- r'https://drive\.google\.com/open\?id=[^\s]+' -/
def patDriveOpen : LinkPattern := ⟨"https://drive.google.com/open?id=".data, false⟩

/-- r'https://we\.tl/t-[^\s]+' -/
def patWeTl : LinkPattern := ⟨"https://we.tl/t-".data, false⟩

/-- r'https://wetransfer\.com/downloads/[^\s]+' -/
def patWeTransfer : LinkPattern := ⟨"https://wetransfer.com/downloads/".data, false⟩

/-- The ordered pattern list of extract_links_from_messages. -/
def linkPatterns : List LinkPattern :=
  [patDriveFile, patDriveOpen, patWeTl, patWeTransfer]

/-- Try to match a pattern at the start of cs; on success return the matched
characters and the rest of the input after the match. -/
def tryMatchAt (p : LinkPattern) (cs : List Char) : Option (List Char × List Char) :=
  if p.lit.isPrefixOf cs then
    let rest := cs.drop p.lit.length
    let run := rest.takeWhile (fun c => ¬ isSpaceChar c)
    if run.isEmpty then none
    else if p.headNotSlash && run.headD ' ' == '/' then none
    else some (p.lit ++ run, rest.drop run.length)
  else none

/-- re.findall for one of the link patterns: scan left to right, emitting
maximal non-overlapping matches (fuel-indexed; each step consumes at least
one character, so fuel equal to the input length suffices). -/
def findAllAux (p : LinkPattern) : Nat → List Char → List (List Char)
  | 0, _ => []
  | _, [] => []
  | fuel + 1, c :: rest =>
    match tryMatchAt p (c :: rest) with
    | some (m, remaining) => m :: findAllAux p fuel remaining
    | none => findAllAux p fuel rest

/-- re.findall(pattern, body) for one link pattern. -/
def findAll (p : LinkPattern) (cs : List Char) : List (List Char) :=
  findAllAux p cs.length cs

/-- Characters stripped from the end of a match: match.rstrip('.,;!?)')
(backend line 140). -/
def stripChars : List Char := ['.', ',', ';', '!', '?', ')']

/-- Python str.rstrip('.,;!?)') on a character list. -/
def rstripPunct (cs : List Char) : List Char :=
  (cs.reverse.dropWhile (fun c => c ∈ stripChars)).reverse

/-- URL cleanup applied to each raw regex match (the normalization the system
applies to links): clean_url = match.rstrip('.,;!?)'). -/
def normalizeUrl (s : String) : String := String.mk (rstripPunct s.data)

/-- The link_info dict built for one raw match of one pattern in one message
(backend lines 139-149). -/
def linkFromMatch (m : Message) (raw : List Char) : LinkInfo :=
  { url := normalizeUrl (String.mk raw)
    message_id := m.id
    author := m.author
    timestamp := m.timestamp
    message_body := m.body }

/-- Inner pattern loop of extract_links_from_messages: for each pattern in
order, append one link per match. -/
def linksOfPatterns (m : Message) : List LinkPattern → List LinkInfo
  | [] => []
  | p :: ps => (findAll p m.body.data).map (linkFromMatch m) ++ linksOfPatterns m ps

/-- LinkDownloadManager.extract_links_from_messages (backend lines 114-156)
applied to the parsed message collection: only messages of type "chat" with a
truthy (non-empty) body contribute, in message order. -/
def extract_links_from_messages : List Message → List LinkInfo
  | [] => []
  | m :: rest =>
    (if m.type = "chat" ∧ m.body ≠ "" then linksOfPatterns m linkPatterns else [])
      ++ extract_links_from_messages rest

/-! ## Catalog Store: update_media_json, and the extension classifier -/

/-- One downloaded file as seen on disk by update_media_json: Path fields
(name, stem, suffix), the relative path string stored as mediaPath, whether
Path.exists() holds, and stat().st_size. -/
structure DownloadedFile where
  name : String
  stem : String
  suffix : String
  relPath : String
  fileExists : Bool
  size : Nat
deriving DecidableEq

/-- Video extension allowlist of update_media_json (backend line 191). -/
def video_extensions : List String :=
  [".mp4", ".avi", ".mov", ".mkv", ".wmv", ".flv", ".webm", ".m4v", ".3gp"]

/-- Image extension allowlist of update_media_json (backend line 192). -/
def image_extensions : List String :=
  [".jpg", ".jpeg", ".png", ".gif", ".bmp", ".webp"]

/-- Media-type classification from the lowercased extension (backend lines
194-199): video / image / else "document". -/
def classifyMedia (ext : String) : String :=
  if ext ∈ video_extensions then "video"
  else if ext ∈ image_extensions then "image"
  else "document"

/-- The media_entry dict built for one downloaded file (backend lines
183-215).  mediaLen is len(media_data) at that point (used in the id). -/
def mediaEntryFor (env : Env) (link : LinkInfo) (mediaLen : Nat)
    (f : DownloadedFile) : MediaEntry :=
  { id := "auto_" ++ toString env.now ++ "_" ++ f.stem ++ "_" ++ toString mediaLen
    author := link.author
    timestamp := env.now
    original_timestamp := link.timestamp
    caption := "Auto-downloaded from: " ++ link.url.take 50 ++ "..."
    type := classifyMedia f.suffix.toLower
    mediaPath := f.relPath
    source_link := link.url
    source_message_id := link.message_id
    source_message_body := link.message_body
    file_size := f.size
    file_extension := f.suffix.toLower
    download_date := env.nowIso }

/-- Per-file loop of update_media_json (backend lines 180-220): for each
downloaded file that exists, append a catalog entry and mark the link
processed, threading manager state and the in-memory media_data list. -/
def updateMediaAux (env : Env) (link : LinkInfo) :
    MgrState → List MediaEntry → List DownloadedFile → MgrState × List MediaEntry
  | s, media, [] => (s, media)
  | s, media, f :: fs =>
    if f.fileExists then
      let entry := mediaEntryFor env link media.length f
      updateMediaAux env link (mark_link_processed s link.url (some entry))
        (media ++ [entry]) fs
    else updateMediaAux env link s media fs

/-- LinkDownloadManager.update_media_json (backend lines 170-229): load the
persisted catalog, append one entry per existing downloaded file, and rewrite
the whole catalog.  Returns the new manager state and the catalog as written
to disk. -/
def update_media_json (env : Env) (s : MgrState) (catalog : List MediaEntry)
    (link : LinkInfo) (downloaded_files : List DownloadedFile) :
    MgrState × List MediaEntry :=
  updateMediaAux env link s catalog downloaded_files

/-! ## Orchestrator: download_link and process_new_links -/

/-- LinkDownloadManager.download_link (backend lines 231-276, selenium lines
240-285; the two variants are identical).  The browser outcome is passed in:
driverSuccess is what downloader.download(url) returned, files_before the
directory names snapshot taken before the attempt, files_after the directory
listing taken after it.  Returns the method's boolean result plus the new
manager state and catalog file. -/
def download_link (env : Env) (s : MgrState) (catalog : List MediaEntry)
    (link : LinkInfo) (driverSuccess : Bool) (files_before : List String)
    (files_after : List DownloadedFile) : Bool × MgrState × List MediaEntry :=
  if is_link_processed s link.url then (false, s, catalog)
  else if driverSuccess then
    let new_files := files_after.filter (fun f => ¬ f.name ∈ files_before)
    if ¬ new_files.isEmpty then
      let r := update_media_json env s catalog link new_files
      (true, r.1, r.2)
    else (false, mark_link_processed s link.url none, catalog)
  else (false, s, catalog)

/-- External outcome of one link's download attempt inside the processing
loop. -/
structure LinkOutcome where
  driverSuccess : Bool
  files_before : List String
  files_after : List DownloadedFile
deriving DecidableEq

/-- Outcome used when the outcome trace runs short (an attempt in which the
driver fails and the directory is unchanged). -/
def defaultLinkOutcome : LinkOutcome := ⟨false, [], []⟩

/-- Which exit path process_new_links took (the Python method returns None;
this records the branch for specification purposes). -/
inductive ProcResult where
  | droppedBusy
  | noChange
  | noLinks
  | noNewLinks
  | processed (n : Nat)
deriving DecidableEq

/-- The finally block of process_new_links: is_processing is reset on every
exit path of the try body. -/
def processFin (r : ProcResult) (s : MgrState) (cat : List MediaEntry) :
    ProcResult × MgrState × List MediaEntry :=
  (r, { s with is_processing := false }, cat)

/-- Sequential per-link loop of process_new_links (backend lines 311-321):
links are processed one after another, each through download_link. -/
def processLoop (env : Env) :
    MgrState → List MediaEntry → List LinkInfo → List LinkOutcome →
    MgrState × List MediaEntry
  | s, cat, [], _ => (s, cat)
  | s, cat, l :: ls, outs =>
    let o := outs.headD defaultLinkOutcome
    let r := download_link env s cat l o.driverSuccess o.files_before o.files_after
    processLoop env r.2.1 r.2.2 ls outs.tail

/-- Body of the try block of process_new_links (backend lines 287-329), given
the already-flagged state. -/
def processCore (env : Env) (s : MgrState) (cat : List MediaEntry)
    (file : FileView) (msgs : List Message) (outs : List LinkOutcome) :
    ProcResult × MgrState × List MediaEntry :=
  let links := extract_links_from_messages msgs
  if links.isEmpty then processFin .noLinks (update_file_state s file) cat
  else
    let new_links := links.filter (fun l => ¬ is_link_processed s l.url)
    if new_links.isEmpty then processFin .noNewLinks (update_file_state s file) cat
    else
      let r := processLoop env s cat new_links outs
      processFin (.processed new_links.length) (update_file_state r.1 file) r.2

/-- Change gate of the try body: with force the file check is skipped
(short-circuit of "not force and not self.has_file_changed()"). -/
def processBody (env : Env) (s : MgrState) (cat : List MediaEntry) (force : Bool)
    (file : FileView) (msgs : List Message) (outs : List LinkOutcome) :
    ProcResult × MgrState × List MediaEntry :=
  if force then processCore env s cat file msgs outs
  else
    let ch := has_file_changed s file
    if ch.1 then processCore env ch.2 cat file msgs outs
    else processFin .noChange ch.2 cat

/-- LinkDownloadManager.process_new_links (backend lines 278-329, selenium
lines 287-338; identical in both variants).  The guard drops a non-forced
trigger while is_processing is set, returning with nothing done; otherwise
the busy flag is set and the body runs, with the finally block clearing the
flag. -/
def process_new_links (env : Env) (s : MgrState) (cat : List MediaEntry)
    (force : Bool) (file : FileView) (msgs : List Message)
    (outs : List LinkOutcome) : ProcResult × MgrState × List MediaEntry :=
  if s.is_processing && !force then (.droppedBusy, s, cat)
  else processBody env { s with is_processing := true } cat force file msgs outs

/-! ## Completion Detector: wait_for_download_completion

The two source variants differ materially and are modelled separately.
The directory is observed once per poll tick; the while loop's clock reads
become the now field of each tick observation (seconds since start_time),
and the final post-timeout rescan gets its own directory listing so that a
last-moment race is representable.  A run returns none when the observation
trace ends before the loop does (the behaviour is then not determined by the
trace). -/

/-- Python str.endswith, via character lists (String.endsWith itself is not
kernel-reducible). -/
def strEndsWith (suf s : String) : Bool := suf.data.isSuffixOf s.data

/-- Python str.startswith, via character lists. -/
def strStartsWith (pre s : String) : Bool := pre.data.isPrefixOf s.data

/-- One file of a directory listing: name, stat().st_size and stat().st_mtime. -/
structure DirEntry where
  name : String
  size : Nat
  mtime : Nat
deriving DecidableEq

/-- Names of the pre-attempt snapshot (initial_files: every file, hidden ones
included; backend lines 398-404). -/
def initNames (initial : List DirEntry) : List String := initial.map (fun f => f.name)

/-- initial_sizes.get(name, 0): size recorded in the snapshot, defaulting
to 0. -/
def sizeOfIn (initial : List DirEntry) (n : String) : Nat :=
  ((initial.find? (fun f => f.name = n)).map (fun f => f.size)).getD 0

/-- One poll-tick observation of the backend variant. -/
structure TickObs where
  now : Nat
  dir : List DirEntry
deriving DecidableEq

/-- One iteration of the backend variant's while loop (backend lines
416-505), given the pre-attempt snapshot: some true means return True on
this tick, none means keep waiting.  No iteration of this variant returns
False. -/
def backendTick (initial : List DirEntry) (t : TickObs) : Option Bool :=
  if t.dir.any (fun f => strEndsWith ".crdownload" f.name) then none
  else if t.dir.any (fun f => strEndsWith ".tmp" f.name) then none
  else
    let current := t.dir.filter (fun f => ¬ strStartsWith "." f.name)
    let new_files := current.filter (fun f => ¬ f.name ∈ initNames initial)
    if ¬ new_files.isEmpty then some true
    else if current.any (fun f =>
        decide (f.name ∈ initNames initial) && decide (sizeOfIn initial f.name < f.size)) then
      some true
    else if 2 ≤ t.now then
      let final_files := t.dir.filter
        (fun f => (¬ strStartsWith "." f.name) && decide (t.now - f.mtime < 30))
      let recent_new := final_files.filter (fun f => ¬ f.name ∈ initNames initial)
      if ¬ recent_new.isEmpty then some true else none
    else none

/-- The backend variant's loop plus its final post-timeout rescan (backend
lines 389-527): the loop runs while now < timeout; on exit one full rescan of
finalDir (hidden files excluded) reports True iff it shows a name absent from
the snapshot. -/
def backendWaitAux (timeout : Nat) (initial : List DirEntry) :
    List TickObs → List DirEntry → Option Bool
  | [], _ => none
  | t :: ts, finalDir =>
    if timeout ≤ t.now then
      let finals := finalDir.filter (fun f => ¬ strStartsWith "." f.name)
      some (¬ (finals.filter (fun f => ¬ f.name ∈ initNames initial)).isEmpty)
    else
      match backendTick initial t with
      | some b => some b
      | none => backendWaitAux timeout initial ts finalDir

/-- Backend SeleniumVideoDownloader.wait_for_download_completion, run over a
trace of tick observations with the pre-attempt directory listing and the
final-rescan listing. -/
def backendWait (timeout : Nat) (initialDir : List DirEntry) (obs : List TickObs)
    (finalDir : List DirEntry) : Option Bool :=
  backendWaitAux timeout initialDir obs finalDir

/-- One poll-tick observation of the selenium variant, which additionally
consults the browser: the JavaScript downloads-manager probe, whether the
current URL is still a drive.google.com page, and whether that page shows
clickable download elements. -/
structure SelTickObs where
  now : Nat
  dir : List DirEntry
  downloadsActive : Bool
  onDrivePage : Bool
  driveDownloadElems : Bool
deriving DecidableEq

/-- Selenium variant of the wait loop (selenium lines 399-538).  It threads
two mutable locals: download_detected and the initial_sizes dict (updated
when a file grows).  A growing file does not return success; it only marks
activity.  If no activity has been detected and more than 10 seconds have
elapsed, the loop tries a last drive-page click and otherwise returns False
early. -/
def seleniumWaitAux (timeout : Nat) (initialNames : List String) :
    Bool → List (String × Nat) → List SelTickObs → List DirEntry → Option Bool
  | _, _, [], _ => none
  | detected, sizes, t :: ts, finalDir =>
    if timeout ≤ t.now then
      some (¬ (finalDir.filter (fun f => ¬ f.name ∈ initialNames)).isEmpty)
    else
      let det1 := detected || t.downloadsActive
      if t.dir.any (fun f => strEndsWith ".crdownload" f.name) then
        seleniumWaitAux timeout initialNames true sizes ts finalDir
      else if t.dir.any (fun f => strEndsWith ".tmp" f.name) then
        seleniumWaitAux timeout initialNames true sizes ts finalDir
      else
        let current := t.dir.filter (fun f => ¬ strStartsWith "." f.name)
        if ¬ (current.filter (fun f => ¬ f.name ∈ initialNames)).isEmpty then some true
        else
          let grown := current.filter (fun f =>
            decide (f.name ∈ initialNames) &&
              decide ((((sizes.find? (fun p => p.1 = f.name)).map (fun p => p.2)).getD 0) < f.size))
          let det2 := det1 || ¬ grown.isEmpty
          let sizes2 := grown.foldl
            (fun sz f => sz.map (fun p => if p.1 = f.name then (p.1, f.size) else p)) sizes
          if !det2 && decide (10 < t.now) then
            if t.onDrivePage && t.driveDownloadElems then
              seleniumWaitAux timeout initialNames true sizes2 ts finalDir
            else some false
          else seleniumWaitAux timeout initialNames det2 sizes2 ts finalDir

/-- Selenium SeleniumVideoDownloader.wait_for_download_completion over a tick
trace (note: its final rescan does not exclude hidden files). -/
def seleniumWait (timeout : Nat) (initialDir : List DirEntry) (obs : List SelTickObs)
    (finalDir : List DirEntry) : Option Bool :=
  seleniumWaitAux timeout (initNames initialDir) false
    (initialDir.map (fun f => (f.name, f.size))) obs finalDir

/-! ## Concrete sample values used by witnesses and counterexamples -/

/-- Sample environment. -/
def envX : Env := ⟨100, "2026-01-01T00:00:00"⟩

/-- Sample extracted link. -/
def linkX : LinkInfo := ⟨"https://we.tl/t-abc", "m1", "alice", 5, "see https://we.tl/t-abc. ok"⟩

/-- Sample downloaded video file. -/
def fileMp4 : DownloadedFile := ⟨"clip.mp4", "clip", ".mp4", "media/clip.mp4", true, 10⟩

/-- Sample downloaded image file. -/
def filePng : DownloadedFile := ⟨"pic.png", "pic", ".png", "media/pic.png", true, 4⟩

/-- Manager state with the busy flag set (an in-flight run). -/
def busyState : MgrState := { freshMgrState with is_processing := true }

/-- Watch state holding snapshot "abc" with mtime 5 and size 3. -/
def watchState5 : MgrState :=
  { freshMgrState with
    last_modification_time := 5
    last_file_size := 3
    last_messages_content := "abc" }

/-- File view: same bytes as watchState5's snapshot, mtime moved backwards. -/
def touchBack : FileView := ⟨true, 4, 3, "abc"⟩

/-- File view: same bytes as watchState5's snapshot, mtime moved forwards. -/
def touchFwd : FileView := ⟨true, 9, 3, "abc"⟩

/-- Chat message whose body contains the same wetransfer link twice, once
with trailing punctuation. -/
def msgDup : Message :=
  ⟨"m1", "chat", "see https://we.tl/t-abc. and https://we.tl/t-abc, ok", "alice", 5⟩

/-- The link record that extracting msgDup produces (twice). -/
def dupLink : LinkInfo :=
  ⟨"https://we.tl/t-abc", "m1", "alice", 5,
    "see https://we.tl/t-abc. and https://we.tl/t-abc, ok"⟩

/-! ## Helper lemmas -/

/-- Sanity: md5 of the empty string agrees with the standard test vector. -/
theorem md5Hex_empty : md5Hex "" = "d41d8cd98f00b204e9800998ecf8427e" := by decide

/-- Sanity: md5 of "abc" agrees with the standard test vector. -/
theorem md5Hex_abc : md5Hex "abc" = "900150983cd24fb0d6963f7d28e17f72" := by decide

theorem insertHash_mem_self (h : String) (l : List String) : h ∈ insertHash h l := by
  unfold insertHash
  split
  · assumption
  · exact List.mem_cons_self h l

theorem mem_insertHash (a b : String) (l : List String) :
    a ∈ insertHash b l ↔ a = b ∨ a ∈ l := by
  unfold insertHash
  split
  · constructor
    · exact Or.inr
    · rintro (rfl | h)
      · assumption
      · assumption
  · exact List.mem_cons

theorem updateMediaAux_processed_mono (env : Env) (link : LinkInfo) (h : String) :
    ∀ (fs : List DownloadedFile) (s : MgrState) (media : List MediaEntry),
    h ∈ s.processed_links → h ∈ (updateMediaAux env link s media fs).1.processed_links := by
  intro fs
  induction fs with
  | nil => intro s media hm; exact hm
  | cons f fs ih =>
    intro s media hm
    unfold updateMediaAux
    split
    · exact ih _ _ ((mem_insertHash _ _ _).mpr (Or.inr hm))
    · exact ih _ _ hm

theorem updateMediaAux_marks (env : Env) (link : LinkInfo) :
    ∀ (fs : List DownloadedFile) (s : MgrState) (media : List MediaEntry),
    fs.any (fun f => f.fileExists) = true →
    md5Hash link.url ∈ (updateMediaAux env link s media fs).1.processed_links := by
  intro fs
  induction fs with
  | nil => intro s media hm; simp at hm
  | cons f fs ih =>
    intro s media hm
    unfold updateMediaAux
    by_cases hf : f.fileExists
    · rw [if_pos hf]
      exact updateMediaAux_processed_mono env link _ fs _ _
        (by simp [mark_link_processed]; exact insertHash_mem_self _ _)
    · rw [if_neg hf]
      apply ih
      simp only [List.any_cons, Bool.or_eq_true] at hm
      rcases hm with hm | hm
      · exact absurd hm hf
      · exact hm

theorem updateMediaAux_catalog_mono (env : Env) (link : LinkInfo) (e : MediaEntry) :
    ∀ (fs : List DownloadedFile) (s : MgrState) (media : List MediaEntry),
    e ∈ media → e ∈ (updateMediaAux env link s media fs).2 := by
  intro fs
  induction fs with
  | nil => intro s media hm; exact hm
  | cons f fs ih =>
    intro s media hm
    unfold updateMediaAux
    split
    · exact ih _ _ (List.mem_append_left _ hm)
    · exact ih _ _ hm

theorem updateMediaAux_entry_exists (env : Env) (link : LinkInfo) :
    ∀ (fs : List DownloadedFile) (s : MgrState) (media : List MediaEntry),
    fs.any (fun f => f.fileExists) = true →
    ∃ e ∈ (updateMediaAux env link s media fs).2, e.source_link = link.url := by
  intro fs
  induction fs with
  | nil => intro s media hm; simp at hm
  | cons f fs ih =>
    intro s media hm
    unfold updateMediaAux
    by_cases hf : f.fileExists
    · rw [if_pos hf]
      refine ⟨mediaEntryFor env link media.length f, ?_, rfl⟩
      exact updateMediaAux_catalog_mono env link _ fs _ _
        (List.mem_append_right _ (List.mem_singleton.mpr rfl))
    · rw [if_neg hf]
      apply ih
      simp only [List.any_cons, Bool.or_eq_true] at hm
      rcases hm with hm | hm
      · exact absurd hm hf
      · exact hm

theorem updateMediaAux_count (env : Env) (link : LinkInfo) :
    ∀ (fs : List DownloadedFile) (s : MgrState) (media : List MediaEntry),
    ((updateMediaAux env link s media fs).2.filter
        (fun e => e.source_link = link.url)).length =
      (media.filter (fun e => e.source_link = link.url)).length +
        (fs.filter (fun f => f.fileExists)).length := by
  intro fs
  induction fs with
  | nil => intro s media; simp [updateMediaAux]
  | cons f fs ih =>
    intro s media
    unfold updateMediaAux
    by_cases hf : f.fileExists
    · rw [if_pos hf]
      rw [ih]
      simp [List.filter_append, mediaEntryFor, hf]
      omega
    · rw [if_neg hf]
      rw [ih]
      simp [hf]

theorem load_processed_mono (h : String) :
    ∀ (catalog : List MediaEntry) (s : MgrState),
    h ∈ s.processed_links → h ∈ (load_processed_links s catalog).processed_links := by
  intro catalog
  induction catalog with
  | nil => intro s hm; exact hm
  | cons e es ih =>
    intro s hm
    unfold load_processed_links
    simp only [List.foldl_cons]
    exact ih _ ((mem_insertHash _ _ _).mpr (Or.inr hm))

theorem load_processed_of_entry (u : String) :
    ∀ (catalog : List MediaEntry) (s : MgrState),
    (∃ e ∈ catalog, e.source_link = u) →
    md5Hash u ∈ (load_processed_links s catalog).processed_links := by
  intro catalog
  induction catalog with
  | nil => intro s hm; simp at hm
  | cons e es ih =>
    intro s hm
    rcases hm with ⟨e', he', hu⟩
    rcases List.mem_cons.mp he' with rfl | he'
    · unfold load_processed_links
      simp only [List.foldl_cons]
      apply load_processed_mono
      rw [← hu]
      exact insertHash_mem_self _ _
    · unfold load_processed_links
      simp only [List.foldl_cons]
      exact ih _ ⟨e', he', hu⟩

theorem processCore_ne_dropped (env : Env) (s : MgrState) (cat : List MediaEntry)
    (file : FileView) (msgs : List Message) (outs : List LinkOutcome) :
    (processCore env s cat file msgs outs).1 ≠ ProcResult.droppedBusy := by
  unfold processCore processFin
  dsimp only
  split_ifs <;> simp

theorem process_forced_eq (env : Env) (s : MgrState) (cat : List MediaEntry)
    (file : FileView) (msgs : List Message) (outs : List LinkOutcome) :
    process_new_links env s cat true file msgs outs =
      processCore env { s with is_processing := true } cat file msgs outs := by
  unfold process_new_links processBody
  simp

/-! ## Claim theorems -/

/-- C1, counterexample: with an empty processed set, a download attempt in
which the provider flow driver returns failure leaves the manager state
unchanged — the link is not marked processed — and a subsequent invocation
with the same URL does not skip it but retries (here succeeding and
recording).  This refutes the claim that every failed attempt marks the link
processed. -/
theorem c1_counterexample :
    download_link envX freshMgrState [] linkX false [] [] =
      (false, freshMgrState, []) ∧
    is_link_processed freshMgrState linkX.url = false ∧
    (download_link envX freshMgrState [] linkX true [] [fileMp4]).1 = true := by
  decide

/-- C1, amended: download_link marks the link processed only in the
completion-detection failure case (driver reported success but no new file
appeared in the directory); when the driver itself returns failure, the
manager state and catalog are left untouched, so the link is retried by a
later invocation rather than skipped. -/
theorem c1_amended (env : Env) (s : MgrState) (cat : List MediaEntry)
    (link : LinkInfo) (fb : List String) (fa : List DownloadedFile) :
    download_link env s cat link false fb fa = (false, s, cat) ∧
    ((fa.filter (fun f => ¬ f.name ∈ fb)).isEmpty = true →
      is_link_processed s link.url = false →
      download_link env s cat link true fb fa =
        (false, mark_link_processed s link.url none, cat) ∧
      is_link_processed (mark_link_processed s link.url none) link.url = true) := by
  constructor
  · unfold download_link
    split
    · rfl
    · simp
  · intro hempty hnot
    constructor
    · unfold download_link
      rw [if_neg (by simp [hnot]), if_pos rfl, if_neg (not_not_intro hempty)]
    · simp only [is_link_processed, mark_link_processed, decide_eq_true_eq]
      exact insertHash_mem_self _ _

/-- C1, witness for the amended theorem at a concrete input: driver success
with no new files marks the link processed. -/
theorem c1_amended_witness :
    download_link envX freshMgrState [] linkX true [] [] =
      (false, mark_link_processed freshMgrState linkX.url none, []) ∧
    is_link_processed (mark_link_processed freshMgrState linkX.url none) linkX.url = true :=
  (c1_amended envX freshMgrState [] linkX [] []).2 (by decide) (by decide)

/-- C2, counterexample: a single update_media_json call recording one link
with two downloaded files appends two catalog entries with the same source
link, so the catalog does not contain at most one entry per normalized-link
hash. -/
theorem c2_counterexample :
    ¬ (((update_media_json envX freshMgrState [] linkX [fileMp4, filePng]).2.filter
        (fun e => e.source_link = linkX.url)).length ≤ 1) := by
  decide

/-- C2, amended: one record call appends exactly one catalog entry per
downloaded file that exists on disk, each carrying the link's URL as its
source link — so the number of entries keyed by a given link's hash grows by
the number of files recorded (more than one for a multi-file download), and
uniqueness per link holds only across calls, via the processed-link check
that keeps the orchestrator from recording the same URL twice. -/
theorem c2_amended (env : Env) (s : MgrState) (catalog : List MediaEntry)
    (link : LinkInfo) (files : List DownloadedFile) :
    ((update_media_json env s catalog link files).2.filter
        (fun e => e.source_link = link.url)).length =
      (catalog.filter (fun e => e.source_link = link.url)).length +
        (files.filter (fun f => f.fileExists)).length :=
  updateMediaAux_count env link files s catalog

/-- C4: a non-forced process_new_links invocation arriving while the busy
flag is set returns immediately with the manager state and catalog exactly
as they were — no link extraction, no download, and nothing queued for
later. -/
theorem c4_busy_drop (env : Env) (s : MgrState) (cat : List MediaEntry)
    (file : FileView) (msgs : List Message) (outs : List LinkOutcome)
    (h : s.is_processing = true) :
    process_new_links env s cat false file msgs outs =
      (ProcResult.droppedBusy, s, cat) := by
  unfold process_new_links
  rw [if_pos (by rw [h]; rfl)]

/-- C4, witness: the drop at a concrete busy state. -/
theorem c4_busy_drop_witness :
    process_new_links envX busyState [] false touchFwd [msgDup] [] =
      (ProcResult.droppedBusy, busyState, []) :=
  c4_busy_drop envX busyState [] touchFwd [msgDup] [] (by decide)

/-- C8, counterexample: the hash applies no normalization, so two URLs with
equal normalized (trailing-punctuation-stripped) forms but different raw
strings hash differently, and a link marked processed under the raw
punctuated URL is not recognised for the clean form.  This refutes the
claimed equivalence of hash equality with normalized-form equality. -/
theorem c8_counterexample :
    normalizeUrl "https://we.tl/t-abc" = normalizeUrl "https://we.tl/t-abc." ∧
    md5Hash "https://we.tl/t-abc" ≠ md5Hash "https://we.tl/t-abc." ∧
    is_link_processed
      (mark_link_processed freshMgrState "https://we.tl/t-abc." none)
      "https://we.tl/t-abc" = false := by
  decide

/-- C8, amended: the link hash is a pure function of the raw URL string (the
md5 hex digest of its UTF-8 bytes, computed without side effects), and
marking a URL processed makes exactly those URLs with the same raw-string
md5 digest test as processed — hash equality is governed by the raw string,
not by the normalized form. -/
theorem c8_amended (s : MgrState) (u v : String) :
    is_link_processed (mark_link_processed s u none) v =
      (decide (md5Hash v = md5Hash u) || is_link_processed s v) := by
  simp only [is_link_processed, mark_link_processed]
  rw [show (decide (md5Hash v = md5Hash u) || decide (md5Hash v ∈ s.processed_links))
      = decide (md5Hash v = md5Hash u ∨ md5Hash v ∈ s.processed_links) by
    simp]
  simp [mem_insertHash]

/-- C10: a forced process_new_links invocation bypasses the single-flight
guard entirely — its result never reports a dropped trigger, and the value of
the busy flag at entry is irrelevant to what it does (it proceeds to set the
flag and run the processing body either way).  The busy-flag drop applies
only to non-forced invocations. -/
theorem c10_force_bypass (env : Env) (s : MgrState) (cat : List MediaEntry)
    (file : FileView) (msgs : List Message) (outs : List LinkOutcome) :
    (process_new_links env s cat true file msgs outs).1 ≠ ProcResult.droppedBusy ∧
    (∀ b, process_new_links env { s with is_processing := b } cat true file msgs outs =
      process_new_links env { s with is_processing := true } cat true file msgs outs) := by
  constructor
  · rw [process_forced_eq]
    exact processCore_ne_dropped env { s with is_processing := true } cat file msgs outs
  · intro b
    cases b <;> rfl

/-- C3: after update_media_json successfully records a link (at least one of
the downloaded files exists, so an entry with that source link is appended
and the catalog file rewritten), is_link_processed holds for the URL in the
current process, and it also holds in a fresh process that loads the written
catalog via load_processed_links. -/
theorem c3_record_persists (env : Env) (s : MgrState) (catalog : List MediaEntry)
    (link : LinkInfo) (files : List DownloadedFile)
    (h : files.any (fun f => f.fileExists) = true) :
    is_link_processed (update_media_json env s catalog link files).1 link.url = true ∧
    is_link_processed
      (freshProcessLoad (update_media_json env s catalog link files).2) link.url = true := by
  constructor
  · simp only [is_link_processed, decide_eq_true_eq]
    exact updateMediaAux_marks env link files s catalog h
  · simp only [is_link_processed, decide_eq_true_eq, freshProcessLoad]
    exact load_processed_of_entry link.url _ freshMgrState
      (updateMediaAux_entry_exists env link files s catalog h)

/-- C3, witness: recording a concrete wetransfer link with one existing file
makes it processed both in-process and after a fresh catalog load. -/
theorem c3_record_persists_witness :
    is_link_processed (update_media_json envX freshMgrState [] linkX [fileMp4]).1
      linkX.url = true ∧
    is_link_processed
      (freshProcessLoad (update_media_json envX freshMgrState [] linkX [fileMp4]).2)
      linkX.url = true :=
  c3_record_persists envX freshMgrState [] linkX [fileMp4] (by decide)

theorem has_file_changed_flag (s : MgrState) (f : FileView) (b : Bool) :
    has_file_changed { s with is_processing := b } f =
      ((has_file_changed s f).1, { (has_file_changed s f).2 with is_processing := b }) := by
  unfold has_file_changed
  split_ifs <;> rfl

theorem has_file_changed_keeps_flag (s : MgrState) (f : FileView) :
    (has_file_changed s f).2.is_processing = s.is_processing := by
  unfold has_file_changed
  split_ifs <;> rfl

theorem mgr_set_flag_eq (x : MgrState) (hx : x.is_processing = false) :
    { x with is_processing := false } = x := by
  cases x
  simp_all

/-- C5, counterexample: with snapshot mtime 5 and a file whose bytes equal
the snapshot but whose mtime moved backwards to 4 (size unchanged),
has_file_changed returns false yet leaves the stored modification time at 5
instead of updating it to the current value 4 — the quick check
short-circuits before the update.  This refutes the claim that the stored
mtime and size are always updated. -/
theorem c5_counterexample :
    touchBack.content = watchState5.last_messages_content ∧
    touchBack.mtime ≠ watchState5.last_modification_time ∧
    (has_file_changed watchState5 touchBack).1 = false ∧
    (has_file_changed watchState5 touchBack).2.last_modification_time ≠ touchBack.mtime := by
  decide

/-- C5, amended: when the file's bytes equal the stored snapshot,
has_file_changed always returns false (so a non-forced, non-busy
process_new_links invocation exits through the no-change branch without
extracting links); the stored modification time and size are updated to the
current values exactly when the quick check fails (the mtime advanced past
the stored one or the size changed) — a backwards mtime with unchanged size
short-circuits and leaves the stored values as they were. -/
theorem c5_amended (env : Env) (cat : List MediaEntry) (msgs : List Message)
    (outs : List LinkOutcome) (s : MgrState) (f : FileView)
    (hex : f.fileExists = true) (hct : f.content = s.last_messages_content) :
    (has_file_changed s f).1 = false ∧
    ((f.mtime ≤ s.last_modification_time ∧ f.size = s.last_file_size) →
      (has_file_changed s f).2 = s) ∧
    (¬ (f.mtime ≤ s.last_modification_time ∧ f.size = s.last_file_size) →
      (has_file_changed s f).2 =
        { s with last_modification_time := f.mtime, last_file_size := f.size }) ∧
    (s.is_processing = false →
      process_new_links env s cat false f msgs outs =
        (ProcResult.noChange, (has_file_changed s f).2, cat)) := by
  have h1 : (has_file_changed s f).1 = false := by
    unfold has_file_changed
    rw [if_neg (by simp [hex])]
    split_ifs with h2
    · rfl
    · rfl
  refine ⟨h1, ?_, ?_, ?_⟩
  · intro hq
    unfold has_file_changed
    rw [if_neg (by simp [hex]), if_pos hq]
  · intro hq
    unfold has_file_changed
    rw [if_neg (by simp [hex]), if_neg hq, if_pos hct]
  · intro hflag
    unfold process_new_links
    rw [if_neg (by simp [hflag])]
    unfold processBody
    rw [if_neg (by simp)]
    rw [has_file_changed_flag s f true]
    dsimp only
    rw [if_neg (by simp [h1])]
    unfold processFin
    have hkeep : (has_file_changed s f).2.is_processing = false := by
      rw [has_file_changed_keeps_flag]; exact hflag
    have : { { (has_file_changed s f).2 with is_processing := true } with
        is_processing := false } = (has_file_changed s f).2 := by
      exact mgr_set_flag_eq _ hkeep
    rw [this]

/-- C5, witness for the amended theorem: a forward touch (mtime 5 to 9,
bytes unchanged) yields false, updates the stored mtime and size, and a
non-forced invocation exits through the no-change branch. -/
theorem c5_amended_witness :
    (has_file_changed watchState5 touchFwd).1 = false ∧
    ((touchFwd.mtime ≤ watchState5.last_modification_time ∧
        touchFwd.size = watchState5.last_file_size) →
      (has_file_changed watchState5 touchFwd).2 = watchState5) ∧
    (¬ (touchFwd.mtime ≤ watchState5.last_modification_time ∧
        touchFwd.size = watchState5.last_file_size) →
      (has_file_changed watchState5 touchFwd).2 =
        { watchState5 with last_modification_time := touchFwd.mtime,
                           last_file_size := touchFwd.size }) ∧
    (watchState5.is_processing = false →
      process_new_links envX watchState5 [] false touchFwd [msgDup] [] =
        (ProcResult.noChange, (has_file_changed watchState5 touchFwd).2, [])) :=
  c5_amended envX [] [msgDup] [] watchState5 touchFwd (by decide) (by decide)

theorem backendTick_ne_false (initial : List DirEntry) (t : TickObs) :
    backendTick initial t ≠ some false := by
  unfold backendTick
  dsimp only
  split_ifs <;> simp

/-- C6, counterexample: in the selenium variant a poll tick with no partial
marker present and a snapshot file strictly grown (0 to 10 bytes) does not
report success on that tick — growth merely records download activity — and
the run goes on to report failure at the timeout.  This refutes the claim
for the selenium wait_for_download_completion. -/
theorem c6_counterexample :
    seleniumWait 300 [⟨"a.bin", 0, 0⟩]
      [⟨1, [⟨"a.bin", 10, 0⟩], false, false, false⟩,
        ⟨400, [⟨"a.bin", 10, 0⟩], false, false, false⟩]
      [⟨"a.bin", 10, 0⟩] = some false ∧
    ([⟨"a.bin", 10, 0⟩] : List DirEntry).any
      (fun f => strEndsWith ".crdownload" f.name || strEndsWith ".tmp" f.name) = false ∧
    sizeOfIn [⟨"a.bin", 0, 0⟩] "a.bin" < 10 := by
  decide

/-- C6, amended: the growth-means-success behaviour holds for the backend
variant: on any backend poll tick with no .crdownload or .tmp marker in the
directory, if some non-hidden filename from the pre-attempt snapshot now has
a strictly larger size, the tick reports success.  The selenium variant
instead treats growth as in-progress download activity and keeps waiting. -/
theorem c6_amended (initial : List DirEntry) (t : TickObs)
    (h1 : t.dir.any (fun f => strEndsWith ".crdownload" f.name) = false)
    (h2 : t.dir.any (fun f => strEndsWith ".tmp" f.name) = false)
    (h3 : t.dir.any (fun f =>
      (¬ strStartsWith "." f.name) && decide (f.name ∈ initNames initial) &&
        decide (sizeOfIn initial f.name < f.size)) = true) :
    backendTick initial t = some true := by
  have hgrow : (List.filter (fun f => ¬ strStartsWith "." f.name) t.dir).any
      (fun f => decide (f.name ∈ initNames initial) &&
        decide (sizeOfIn initial f.name < f.size)) = true := by
    rw [List.any_eq_true] at h3
    obtain ⟨f, hf, hp⟩ := h3
    rw [List.any_eq_true]
    simp only [Bool.and_eq_true] at hp
    obtain ⟨⟨hv, hm⟩, hs⟩ := hp
    refine ⟨f, ?_, ?_⟩
    · rw [List.mem_filter]
      exact ⟨hf, hv⟩
    · simp only [Bool.and_eq_true]
      exact ⟨hm, hs⟩
  unfold backendTick
  rw [if_neg (by simp [h1]), if_neg (by simp [h2])]
  dsimp only
  split_ifs <;> rfl

/-- C6, witness for the amended theorem: a 0-byte snapshot file grown to 5
bytes, no markers, reports success on that backend tick. -/
theorem c6_amended_witness :
    backendTick [⟨"doc.pdf", 0, 7⟩] ⟨3, [⟨"doc.pdf", 5, 7⟩]⟩ = some true :=
  c6_amended [⟨"doc.pdf", 0, 7⟩] ⟨3, [⟨"doc.pdf", 5, 7⟩]⟩
    (by decide) (by decide) (by decide)

theorem backendWaitAux_false (timeout : Nat) (initial : List DirEntry) :
    ∀ (obs : List TickObs) (finalDir : List DirEntry),
    backendWaitAux timeout initial obs finalDir = some false →
    (∃ t ∈ obs, timeout ≤ t.now) ∧
    (∀ f ∈ finalDir, strStartsWith "." f.name = false → f.name ∈ initNames initial) := by
  intro obs
  induction obs with
  | nil => intro finalDir h; simp [backendWaitAux] at h
  | cons t ts ih =>
    intro finalDir h
    unfold backendWaitAux at h
    split_ifs at h with hto
    · refine ⟨⟨t, List.mem_cons_self t ts, hto⟩, ?_⟩
      have hempty : ((finalDir.filter (fun f => ¬ strStartsWith "." f.name)).filter
          (fun f => ¬ f.name ∈ initNames initial)) = [] := by
        have h' := Option.some.inj h
        rw [← List.isEmpty_iff]
        simpa using h'
      intro f hf hvis
      rw [List.filter_eq_nil_iff] at hempty
      by_contra hne
      refine hempty f ?_ (by simpa using hne)
      rw [List.mem_filter]
      exact ⟨hf, by simp [hvis]⟩
    · cases htick : backendTick initial t with
      | some b =>
        rw [htick] at h
        cases b
        · exact absurd htick (backendTick_ne_false initial t)
        · simp at h
      | none =>
        rw [htick] at h
        obtain ⟨⟨t', ht', hto'⟩, hall⟩ := ih finalDir h
        exact ⟨⟨t', List.mem_cons_of_mem t ht', hto'⟩, hall⟩

/-- C7, counterexample: the selenium variant declares failure on a tick at 11
seconds, long before its 300-second timeout has elapsed, and does so without
the final rescan — the final directory listing here contains a brand-new file
clip.mp4 and the run still returns failure.  This refutes the claim for the
selenium wait_for_download_completion. -/
theorem c7_counterexample :
    seleniumWait 300 [] [⟨11, [], false, false, false⟩] [⟨"clip.mp4", 5, 0⟩] =
      some false ∧
    (11 : Nat) < 300 ∧
    ¬ "clip.mp4" ∈ initNames ([] : List DirEntry) := by
  decide

/-- C7, amended: the claim holds for the backend variant: whenever its
wait_for_download_completion run reports failure, some observed tick had
already reached the timeout (failure is never declared before the timeout
elapses), and the final full rescan found no non-hidden filename outside the
pre-attempt snapshot (had it found one, the run would have reported success
instead).  The selenium variant can instead fail about 10 seconds in, with no
final rescan, when no download activity was detected. -/
theorem c7_amended (timeout : Nat) (initial : List DirEntry) (obs : List TickObs)
    (finalDir : List DirEntry)
    (h : backendWait timeout initial obs finalDir = some false) :
    (∃ t ∈ obs, timeout ≤ t.now) ∧
    (∀ f ∈ finalDir, strStartsWith "." f.name = false → f.name ∈ initNames initial) :=
  backendWaitAux_false timeout initial obs finalDir h

/-- C7, witness for the amended theorem: a concrete failing backend run (empty
directory throughout, timeout 5, exit observed at 6 seconds). -/
theorem c7_amended_witness :
    (∃ t ∈ [(⟨6, []⟩ : TickObs)], (5 : Nat) ≤ t.now) ∧
    (∀ f ∈ ([] : List DirEntry), strStartsWith "." f.name = false →
      f.name ∈ initNames ([] : List DirEntry)) :=
  c7_amended 5 [] [⟨6, []⟩] [] (by decide)

theorem linksOfPatterns_mem (m : Message) :
    ∀ (ps : List LinkPattern) (l : LinkInfo), l ∈ linksOfPatterns m ps →
    ∃ p ∈ ps, ∃ raw ∈ findAll p m.body.data, l = linkFromMatch m raw := by
  intro ps
  induction ps with
  | nil => intro l h; simp [linksOfPatterns] at h
  | cons p ps ih =>
    intro l h
    unfold linksOfPatterns at h
    rcases List.mem_append.mp h with h | h
    · rcases List.mem_map.mp h with ⟨raw, hraw, rfl⟩
      exact ⟨p, List.mem_cons_self p ps, raw, hraw, rfl⟩
    · obtain ⟨p', hp', raw, hraw, heq⟩ := ih l h
      exact ⟨p', List.mem_cons_of_mem p hp', raw, hraw, heq⟩

/-- C9: the link extractor emits links only for messages of type "chat" with
a non-empty body; every emitted link carries that message's id, author,
timestamp and body, and its URL is a raw regex match from the body with
trailing punctuation stripped.  Extraction distributes over message-list
concatenation (links are emitted in message order with no cross-message
deduplication), and extracting a message whose body mentions the same URL
twice yields that link twice.  As a function of the message collection alone
it touches no manager state. -/
theorem c9_extractor :
    (∀ (msgs : List Message) (l : LinkInfo), l ∈ extract_links_from_messages msgs →
      ∃ m ∈ msgs, m.type = "chat" ∧ m.body ≠ "" ∧
        l.message_id = m.id ∧ l.author = m.author ∧ l.timestamp = m.timestamp ∧
        l.message_body = m.body ∧
        ∃ p ∈ linkPatterns, ∃ raw ∈ findAll p m.body.data,
          l.url = normalizeUrl (String.mk raw)) ∧
    (∀ (ms1 ms2 : List Message),
      extract_links_from_messages (ms1 ++ ms2) =
        extract_links_from_messages ms1 ++ extract_links_from_messages ms2) ∧
    extract_links_from_messages [msgDup] = [dupLink, dupLink] := by
  refine ⟨?_, ?_, by decide⟩
  · intro msgs
    induction msgs with
    | nil => intro l h; simp [extract_links_from_messages] at h
    | cons m rest ih =>
      intro l h
      unfold extract_links_from_messages at h
      rcases List.mem_append.mp h with h | h
      · split_ifs at h with hc
        · obtain ⟨p, hp, raw, hraw, rfl⟩ := linksOfPatterns_mem m linkPatterns l h
          exact ⟨m, List.mem_cons_self m rest, hc.1, hc.2, rfl, rfl, rfl, rfl,
            p, hp, raw, hraw, rfl⟩
        · simp at h
      · obtain ⟨m', hm', hrest⟩ := ih l h
        exact ⟨m', List.mem_cons_of_mem m hm', hrest⟩
  · intro ms1 ms2
    induction ms1 with
    | nil => simp [extract_links_from_messages]
    | cons m rest ih =>
      simp only [List.cons_append]
      unfold extract_links_from_messages
      rw [ih, List.append_assoc]
      cases ms2 <;> rfl

/-- C9, witness: for the duplicated-link chat message, the extracted link is
traced back to that message, a pattern and a raw match. -/
theorem c9_extractor_witness :
    ∃ m ∈ [msgDup], m.type = "chat" ∧ m.body ≠ "" ∧
      dupLink.message_id = m.id ∧ dupLink.author = m.author ∧
      dupLink.timestamp = m.timestamp ∧ dupLink.message_body = m.body ∧
      ∃ p ∈ linkPatterns, ∃ raw ∈ findAll p m.body.data,
        dupLink.url = normalizeUrl (String.mk raw) :=
  c9_extractor.1 [msgDup] dupLink (by decide)

/-- C2, witness instance for the amended theorem: recording two files on an
empty catalog yields exactly two entries keyed by the link. -/
theorem c2_amended_witness :
    ((update_media_json envX freshMgrState [] linkX [fileMp4, filePng]).2.filter
        (fun e => e.source_link = linkX.url)).length =
      (([] : List MediaEntry).filter (fun e => e.source_link = linkX.url)).length +
        ([fileMp4, filePng].filter (fun f => f.fileExists)).length :=
  c2_amended envX freshMgrState [] linkX [fileMp4, filePng]

/-- C8, witness instance for the amended theorem: membership after marking is
governed by raw-string md5 equality. -/
theorem c8_amended_witness :
    is_link_processed
      (mark_link_processed freshMgrState "https://we.tl/t-abc" none)
      "https://we.tl/t-abc." =
    (decide (md5Hash "https://we.tl/t-abc." = md5Hash "https://we.tl/t-abc") ||
      is_link_processed freshMgrState "https://we.tl/t-abc.") :=
  c8_amended freshMgrState "https://we.tl/t-abc" "https://we.tl/t-abc."

/-- C10, witness instance: a forced invocation on a busy state is not
dropped, and behaves as if the flag were already set. -/
theorem c10_force_bypass_witness :
    (process_new_links envX busyState [] true touchFwd [msgDup] []).1 ≠
      ProcResult.droppedBusy ∧
    process_new_links envX { busyState with is_processing := false } [] true
        touchFwd [msgDup] [] =
      process_new_links envX { busyState with is_processing := true } [] true
        touchFwd [msgDup] [] :=
  ⟨(c10_force_bypass envX busyState [] touchFwd [msgDup] []).1,
    (c10_force_bypass envX busyState [] touchFwd [msgDup] []).2 false⟩

end WatsappRSS
